import Mathlib

/-!
Shallow embedding of the cost-calculation engine of `EstimateCore`:
the functions `parseConfig`, `calculateItemCost` and `calculateLaborCost`
from `src/utils.ts`, and the `autoLaborStats` computation from `src/App.tsx`.

Modelling conventions: JavaScript numbers are rationals, values that may be
`undefined` at runtime are `Option`, strings are `String` (processed as
`List Char`), and the regular-expression searches of `parseConfig` are
implemented as explicit leftmost-match scanners over character lists that
mirror the backtracking behaviour of the concrete patterns in the source.
-/

namespace EstimateCore

/-- The whitespace class matched by the regex escape for spaces, restricted to
the ASCII whitespace characters. -/
def isWs (c : Char) : Bool :=
  c == ' ' || c == '\t' || c == '\n' || c == '\r' || c == '\x0b' || c == '\x0c'

/-- ASCII lower-casing of a text, as JavaScript toLowerCase acts on ASCII. -/
def lowerStr (s : List Char) : List Char := s.map Char.toLower

/-- Case-insensitive test that the pattern (given in lower case) starts the
text. -/
def ciStarts : List Char → List Char → Bool
  | [], _ => true
  | _ :: _, [] => false
  | p :: ps, c :: cs => (Char.toLower c == p) && ciStarts ps cs

/-- Exact test that the pattern starts the text. -/
def litStarts : List Char → List Char → Bool
  | [], _ => true
  | _ :: _, [] => false
  | p :: ps, c :: cs => (p == c) && litStarts ps cs

/-- Exact substring containment, scanning every start position. -/
def containsSub (pat : List Char) : List Char → Bool
  | [] => pat.isEmpty
  | c :: cs => litStarts pat (c :: cs) || containsSub pat cs

/-- The longest leading run of decimal digits together with the remaining
text: the greedy digit group of the patterns. -/
def takeDigits : List Char → List Char × List Char
  | [] => ([], [])
  | c :: cs =>
    if c.isDigit then
      let p := takeDigits cs
      (c :: p.1, p.2)
    else ([], c :: cs)

/-- The integer value of a run of decimal digits, as parseInt reads the
leading digits of a matched substring. -/
def digitsVal (ds : List Char) : ℕ := ds.foldl (fun a c => a * 10 + (c.toNat - 48)) 0

/-- Leftmost match of a single-position matcher: the match attempt is made at
every start position from left to right, exactly as a global-less regex search
finds its first match. -/
def firstMatch (f : List Char → Option α) : List Char → Option α
  | [] => none
  | c :: cs =>
    match f (c :: cs) with
    | some v => some v
    | none => firstMatch f cs

/-- One attempt at the start of the text of the CPU pattern of
`parseConfig`: digits, optional whitespace, then the alternation of the
literals core and CPU, case-insensitively, tried left to right. -/
def cpuAt (s : List Char) : Option ℕ :=
  let p := takeDigits s
  if p.1.isEmpty then none
  else
    let r := p.2.dropWhile isWs
    if ciStarts "core".data r then some (digitsVal p.1)
    else if ciStarts "cpu".data r then some (digitsVal p.1)
    else none

/-- One attempt at the start of the text of the RAM pattern of
`parseConfig`: digits, optional whitespace, then the alternation of the
literals GB and GB RAM, case-insensitively, tried left to right (so the
bare GB alternative always wins when either would match). -/
def ramAt (s : List Char) : Option ℕ :=
  let p := takeDigits s
  if p.1.isEmpty then none
  else
    let r := p.2.dropWhile isWs
    if ciStarts "gb".data r then some (digitsVal p.1)
    else if ciStarts "gb ram".data r then some (digitsVal p.1)
    else none

/-- One attempt at the start of the (already lower-cased) text of the storage
unit pattern of `parseConfig`: digits, optional whitespace, then the
alternation gb, g, tb tried left to right.  On success: the numeric value,
whether the matched substring contains tb, and the text after the match. -/
def storAt (s : List Char) : Option (ℕ × Bool × List Char) :=
  let p := takeDigits s
  if p.1.isEmpty then none
  else
    let r := p.2.dropWhile isWs
    if ciStarts "gb".data r then some (digitsVal p.1, false, r.drop 2)
    else if ciStarts "g".data r then some (digitsVal p.1, false, r.drop 1)
    else if ciStarts "tb".data r then some (digitsVal p.1, true, r.drop 2)
    else none

/-- All matches of the global storage unit pattern, non-overlapping and left
to right.  The fuel argument is the length of the text, which always suffices
because every match consumes at least its digit character. -/
def storMatchesAux : ℕ → List Char → List (ℕ × Bool)
  | 0, _ => []
  | _ + 1, [] => []
  | n + 1, c :: cs =>
    match storAt (c :: cs) with
    | some (v, tb, rest) => (v, tb) :: storMatchesAux n rest
    | none => storMatchesAux n cs

/-- All matches of the global storage unit pattern in the text. -/
def storMatches (s : List Char) : List (ℕ × Bool) := storMatchesAux s.length s

/-- The text after the first exact occurrence of the pattern, when the
pattern occurs. -/
def afterFirstOcc (pat : List Char) : List Char → Option (List Char)
  | [] => none
  | c :: cs =>
    if litStarts pat (c :: cs) then some ((c :: cs).drop pat.length)
    else afterFirstOcc pat cs

/-- The text up to (excluding) the next exact occurrence of the pattern; the
whole text when the pattern does not occur. -/
def beforeNextOcc (pat : List Char) : List Char → List Char
  | [] => []
  | c :: cs =>
    if litStarts pat (c :: cs) then []
    else c :: beforeNextOcc pat cs

/-- The storage marker literal. -/
def storageTag : List Char := "storage:".data

/-- The expression on line 85 of `src/utils.ts`: index 1 of the split of the
lower-cased text on the storage marker, defaulting to the empty string.  This
is the segment strictly between the first and second occurrences of the
marker, running to the end of the text when there is no second occurrence,
and empty when the marker does not occur at all. -/
def storagePart (chars : List Char) : List Char :=
  match afterFirstOcc storageTag (lowerStr chars) with
  | none => []
  | some t => beforeNextOcc storageTag t

/-- One attempt at the start of the text of the fallback storage pattern of
`parseConfig`: digits, optional whitespace, the alternation GB, G (tried left
to right with backtracking into the continuation), optional whitespace, then
the literal storage, all case-insensitively. -/
def fallbackAt (s : List Char) : Option ℕ :=
  let p := takeDigits s
  if p.1.isEmpty then none
  else
    let r := p.2.dropWhile isWs
    let tail_ok : List Char → Bool := fun t => ciStarts "storage".data (t.dropWhile isWs)
    if ciStarts "gb".data r && tail_ok (r.drop 2) then some (digitsVal p.1)
    else if ciStarts "g".data r && tail_ok (r.drop 1) then some (digitsVal p.1)
    else none

/-- The record produced by `parseConfig` (ParsedConfig in `src/types.ts`). -/
structure ParsedConfig where
  cpu : ℕ
  ram : ℕ
  storage : ℕ
deriving DecidableEq, Repr

/-- The function parseConfig of `src/utils.ts` (lines 79 to 98): the CPU and
RAM fields take the first match of their pattern anywhere in the text
(default 0); the storage field sums all unit matches in the split segment
after the storage marker, converting tb matches to gigabytes, and falls back
to the single-value full-text search when that segment has no match. -/
def parseConfig (raw : String) : ParsedConfig :=
  let chars := raw.data
  let cpu := (firstMatch cpuAt chars).getD 0
  let ram := (firstMatch ramAt chars).getD 0
  let ms := storMatches (storagePart chars)
  let storage :=
    if ms.isEmpty then (firstMatch fallbackAt chars).getD 0
    else (ms.map fun m => if m.2 then m.1 * 1024 else m.1).sum
  ⟨cpu, ram, storage⟩

/-- JavaScript disjunction applied to a number that may be undefined:
undefined and 0 are falsy and yield the right operand, every other number is
returned unchanged. -/
def jsOrQ (x : Option ℚ) (y : ℚ) : ℚ :=
  match x with
  | none => y
  | some v => if v = 0 then y else v

/-- JavaScript disjunction applied to a number that is always present: 0 is
falsy and yields the right operand. -/
def jsOrN (x y : ℚ) : ℚ := if x = 0 then y else x

/-- The storage tier keys of `src/types.ts`. -/
inductive StorageType where
  | diskSanAllFlash | diskSanAllFlashSme | diskVsan | diskSanHdd
  | storageMinio | storageSmb3 | storageNfsVsan | storageCeph
deriving DecidableEq, Repr

/-- The unit price table of `src/types.ts`; every entry may be absent at
runtime, which the code tolerates through its falsy-default lookups. -/
structure UnitPrices where
  cpu : Option ℚ
  ram : Option ℚ
  diskSanAllFlash : Option ℚ
  diskSanAllFlashSme : Option ℚ
  diskVsan : Option ℚ
  diskSanHdd : Option ℚ
  storageMinio : Option ℚ
  storageSmb3 : Option ℚ
  storageNfsVsan : Option ℚ
  storageCeph : Option ℚ
  bandwidthQt : Option ℚ
  bandwidthInternal : Option ℚ
  osWindows : Option ℚ
  osLinux : Option ℚ
deriving DecidableEq, Repr

/-- The dynamic lookup indexing the price table by the storage tier key. -/
def UnitPrices.byTier (p : UnitPrices) : StorageType → Option ℚ
  | .diskSanAllFlash => p.diskSanAllFlash
  | .diskSanAllFlashSme => p.diskSanAllFlashSme
  | .diskVsan => p.diskVsan
  | .diskSanHdd => p.diskSanHdd
  | .storageMinio => p.storageMinio
  | .storageSmb3 => p.storageSmb3
  | .storageNfsVsan => p.storageNfsVsan
  | .storageCeph => p.storageCeph

/-- The fields of ServerItem (`src/types.ts`) read by `calculateItemCost`;
the display-only fields (id, category, content, note) are omitted. -/
structure ServerItem where
  os : Option String
  configRaw : String
  quantity : Option ℚ
  storageType : StorageType
  bwQt : Option ℚ
  bwInternal : Option ℚ

/-- The result record of `calculateItemCost` (`src/types.ts`). -/
structure CalculationResult where
  unitPrice : ℚ
  totalPrice : ℚ
deriving DecidableEq, Repr

/-- Line 103 of `src/utils.ts`: the operating-system text, defaulted to the
empty string, lower-cased, tested for the substring window. -/
def isWindowsOs (os : Option String) : Bool :=
  containsSub "window".data (lowerStr (os.getD "").data)

/-- Line 108 of `src/utils.ts`: the tier entry of the price table, falling
through the JavaScript disjunction to the diskSanAllFlash entry and then
to 0. -/
def storagePriceUnit (p : UnitPrices) (tier : StorageType) : ℚ :=
  jsOrQ (p.byTier tier) (jsOrQ p.diskSanAllFlash 0)

/-- The function calculateItemCost of `src/utils.ts` (lines 100 to 118); the
price table argument is optional because the code guards against a missing
table with an early zero result. -/
def calculateItemCost (item : ServerItem) (prices : Option UnitPrices) : CalculationResult :=
  match prices with
  | none => ⟨0, 0⟩
  | some p =>
    let config := parseConfig item.configRaw
    let isWindows := isWindowsOs item.os
    let cpuCost := jsOrN (config.cpu : ℚ) 0 * jsOrQ p.cpu 0
    let ramCost := jsOrN (config.ram : ℚ) 0 * jsOrQ p.ram 0
    let storageCost := jsOrN (config.storage : ℚ) 0 * storagePriceUnit p item.storageType
    let bwQtCost := jsOrQ item.bwQt 0 * jsOrQ p.bandwidthQt 0
    let bwInternalCost := jsOrQ item.bwInternal 0 * jsOrQ p.bandwidthInternal 0
    let osCost := if isWindows then jsOrQ p.osWindows 0 else jsOrQ p.osLinux 0
    let unitPrice := cpuCost + ramCost + storageCost + osCost + bwQtCost + bwInternalCost
    ⟨unitPrice, unitPrice * jsOrQ item.quantity 1⟩

/-- The role enumeration of `src/types.ts`. -/
inductive Role where
  | PM | SeniorDev | JuniorDev | Tester | QC | Designer | BA
deriving DecidableEq, Repr

/-- The labor price table of `src/types.ts`: a role-indexed map whose entries
may be absent. -/
def LaborPrices := Role → Option ℚ

/-- The fields of LaborItem (`src/types.ts`) read by the cost and staffing
computations; workflow metadata is omitted. -/
structure LaborItem where
  role : Role
  mandays : ℚ
deriving DecidableEq, Repr

/-- The function calculateLaborCost of `src/utils.ts` (lines 120 to 124); both
arguments are optional because the code guards against either being missing
with an early zero result. -/
def calculateLaborCost (item : Option LaborItem) (prices : Option LaborPrices) : ℚ :=
  match item, prices with
  | some it, some p => jsOrN it.mandays 0 * jsOrQ (p it.role) 0
  | _, _ => 0

/-- The four-field summary computed by autoLaborStats in `src/App.tsx`. -/
structure AutoLaborStats where
  devTotal : ℚ
  pm : ℚ
  ba : ℚ
  tester : ℚ
deriving DecidableEq, Repr

/-- The autoLaborStats computation of `src/App.tsx` (lines 140 to 152), for a
present project with the given labor list: developer mandays are summed over
the items whose role is SeniorDev or JuniorDev, and each derived role gets
one third of that total. -/
def autoLaborStats (labors : List LaborItem) : AutoLaborStats :=
  let devMandays :=
    (labors.filter fun l => l.role == Role.SeniorDev || l.role == Role.JuniorDev).foldl
      (fun sum l => sum + jsOrN l.mandays 0) 0
  let ratio : ℚ := 1 / 3
  ⟨devMandays, devMandays * ratio, devMandays * ratio, devMandays * ratio⟩

/-! ## Claim-side definitions

Each definition below transcribes the wording of one specification claim, to
be compared with the embedded code above. -/

/-- Developer mandays as claim C3 states them: the sum of mandays over
exactly the labor items whose role is SeniorDev or JuniorDev. -/
def specDevMandays (labors : List LaborItem) : ℚ :=
  ((labors.filter fun l => decide (l.role = Role.SeniorDev ∨ l.role = Role.JuniorDev)).map
    fun l => l.mandays).sum

/-- The storage unit price as claim C1 states it: the tier entry is used
whenever the tier key is present in the table (with any value, 0 included),
the diskSanAllFlash entry only when the tier key is absent, and 0 when both
keys are absent. -/
def specStorageUnitPriceByKey (p : UnitPrices) (tier : StorageType) : ℚ :=
  match p.byTier tier with
  | some v => v
  | none =>
    match p.diskSanAllFlash with
    | some w => w
    | none => 0

/-- Truthiness of a price entry: present with a nonzero value. -/
def isTruthyPrice (x : Option ℚ) : Bool := x.getD 0 != 0

/-- The storage unit price as claim C1 must be amended: the tier entry is
used when it is present with a nonzero value, otherwise the diskSanAllFlash
entry when that is present with a nonzero value, otherwise 0. -/
def specStorageUnitPriceTruthy (p : UnitPrices) (tier : StorageType) : ℚ :=
  if isTruthyPrice (p.byTier tier) then (p.byTier tier).getD 0
  else if isTruthyPrice p.diskSanAllFlash then p.diskSanAllFlash.getD 0
  else 0

/-- The quantity factor as claim C2 must be amended: 0 and undefined become
1, and any other value, negative values included, is used as written. -/
def effectiveQuantity (q : Option ℚ) : ℚ :=
  match q with
  | none => 1
  | some v => if v = 0 then 1 else v

/-- Storage as claim C4 states it: scan everything after the first occurrence
of the storage marker in the lower-cased text and sum all unit matches
found there. -/
def specStorageAfterFirst (raw : String) : ℕ :=
  match afterFirstOcc storageTag (lowerStr raw.data) with
  | none => 0
  | some t => ((storMatches t).map fun m => if m.2 then m.1 * 1024 else m.1).sum

/-- Storage as claim C4 must be amended: the scanned region is the split
segment between the first and second occurrences of the storage marker, and
when that region contains no unit match the single-value full-text fallback
search applies. -/
def specStorageAmended (raw : String) : ℕ :=
  let region := storagePart raw.data
  let ms := storMatches region
  if ms.isEmpty then (firstMatch fallbackAt raw.data).getD 0
  else (ms.map fun m => if m.2 then m.1 * 1024 else m.1).sum

/-- The RAM pattern as claim C9 reads it: digits, optional whitespace, then
the literal GB, with no RAM keyword required. -/
def simpleGbAt (s : List Char) : Option ℕ :=
  let p := takeDigits s
  if p.1.isEmpty then none
  else if ciStarts "gb".data (p.2.dropWhile isWs) then some (digitsVal p.1)
  else none

/-! ## Helper lemmas -/

theorem jsOrN_zero (x : ℚ) : jsOrN x 0 = x := by
  unfold jsOrN
  split <;> simp_all

theorem ciStarts_append (p q s : List Char) (h : ciStarts (p ++ q) s = true) :
    ciStarts p s = true := by
  induction p generalizing s with
  | nil => rfl
  | cons a ps ih =>
    cases s with
    | nil => simp [ciStarts] at h
    | cons c cs =>
      simp only [List.cons_append, ciStarts, Bool.and_eq_true] at h ⊢
      exact ⟨h.1, ih cs h.2⟩

theorem ramAt_eq_simpleGbAt (s : List Char) : ramAt s = simpleGbAt s := by
  unfold ramAt simpleGbAt
  by_cases h0 : (takeDigits s).1.isEmpty
  · simp [h0]
  · by_cases h1 : ciStarts "gb".data ((takeDigits s).2.dropWhile isWs) = true
    · simp [h0, h1]
    · have h2 : ciStarts "gb ram".data ((takeDigits s).2.dropWhile isWs) = false := by
        cases h2 : ciStarts "gb ram".data ((takeDigits s).2.dropWhile isWs) with
        | false => rfl
        | true =>
          have hsplit : ("gb ram".data : List Char) = "gb".data ++ " ram".data := by decide
          rw [hsplit] at h2
          exact absurd (ciStarts_append _ _ _ h2) h1
      simp [h0, h1, h2]

theorem firstMatch_congr (f g : List Char → Option α) (h : ∀ s, f s = g s)
    (l : List Char) : firstMatch f l = firstMatch g l := by
  induction l with
  | nil => rfl
  | cons c cs ih =>
    unfold firstMatch
    rw [h]
    cases g (c :: cs) <;> simp [ih]

theorem afterFirstOcc_eq_none (pat l : List Char) (h : containsSub pat l = false) :
    afterFirstOcc pat l = none := by
  induction l with
  | nil => rfl
  | cons c cs ih =>
    unfold containsSub at h
    rw [Bool.or_eq_false_iff] at h
    unfold afterFirstOcc
    rw [h.1]
    simp only [Bool.false_eq_true, if_false]
    exact ih h.2

theorem foldl_add_mandays (l : List LaborItem) (init : ℚ) :
    l.foldl (fun sum x => sum + jsOrN x.mandays 0) init
      = init + (l.map fun x => x.mandays).sum := by
  induction l generalizing init with
  | nil => simp
  | cons a as ih =>
    rw [List.foldl_cons, ih, jsOrN_zero]
    simp only [List.map_cons, List.sum_cons]
    ring

theorem dev_filter_eq (l : List LaborItem) :
    (l.filter fun x => x.role == Role.SeniorDev || x.role == Role.JuniorDev)
      = l.filter fun x => decide (x.role = Role.SeniorDev ∨ x.role = Role.JuniorDev) := by
  apply List.filter_congr
  intro x _
  cases hx : x.role <;> simp [hx]

/-! ## Concrete fixtures used by counterexamples and examples -/

/-- An item whose tier key is present in the table with value 0. -/
def cexItemC1 : ServerItem :=
  ⟨some "Ubuntu Linux (64 bit)", "storage: 100GB", some 1, StorageType.diskVsan,
    some 0, some 0⟩

/-- A price table whose diskVsan entry is present with value 0 while the
diskSanAllFlash entry is 754; fields in declaration order. -/
def cexPricesC1 : UnitPrices :=
  ⟨none, none, some 754, none, some 0, none, none, none, none, none, none, none,
    none, none⟩

/-- An item with quantity -2. -/
def cexItemC2 : ServerItem :=
  ⟨some "Ubuntu Linux (64 bit)", "1 core", some (-2), StorageType.diskSanAllFlash,
    some 0, some 0⟩

/-- A price table with only a cpu price of 1. -/
def cexPricesC2 : UnitPrices :=
  ⟨some 1, none, none, none, none, none, none, none, none, none, none, none,
    none, none⟩

/-- The example item of the specification, with a variable quantity. -/
def itemC6 (q : ℚ) : ServerItem :=
  ⟨some "Ubuntu Linux (64 bit)", "CPU: 8 core; RAM 16GB; storage: 100GB", some q,
    StorageType.diskSanAllFlash, some 0, some 0⟩

/-- The example price table of the specification, completed with zeros. -/
def pricesC6 : UnitPrices :=
  ⟨some 166000, some 111000, some 754, some 0, some 0, some 0, some 0, some 0,
    some 0, some 0, some 0, some 0, some 0, some 0⟩

/-! ## Claim theorems -/

/-- C1 (counterexample): for the item whose tier key diskVsan is present in
the table with the numeric value 0, the code does not use that value
directly: line 108's falsy fallback replaces it with the diskSanAllFlash
price 754, so the storage contribution is 100 × 754 = 75400 where the claim
demands 100 × 0 = 0. -/
theorem tier_zero_falls_back_cex :
    storagePriceUnit cexPricesC1 StorageType.diskVsan = 754 ∧
    specStorageUnitPriceByKey cexPricesC1 StorageType.diskVsan = 0 ∧
    (calculateItemCost cexItemC1 (some cexPricesC1)).unitPrice = 75400 ∧
    (parseConfig "storage: 100GB").storage = 100 := by
  have hp : parseConfig "storage: 100GB" = ⟨0, 100, 100⟩ := by decide
  have hw : isWindowsOs (some "Ubuntu Linux (64 bit)") = false := by decide
  refine ⟨rfl, rfl, ?_, by decide⟩
  simp only [calculateItemCost, cexItemC1, cexPricesC1, hp, hw]
  norm_num [jsOrQ, jsOrN, storagePriceUnit, UnitPrices.byTier]

/-- C1 (amended): the storage unit price used by calculateItemCost is the
tier entry when present and nonzero, falling back to the diskSanAllFlash
entry when that is present and nonzero, falling back to 0 — a tier entry
that is present with value 0 is falsy and is replaced by the fallback.  The
unitPrice decomposes accordingly. -/
theorem storage_price_fallback_truthy :
    (∀ (p : UnitPrices) (tier : StorageType),
      storagePriceUnit p tier = specStorageUnitPriceTruthy p tier) ∧
    (∀ (item : ServerItem) (p : UnitPrices),
      (calculateItemCost item (some p)).unitPrice
        = jsOrN ((parseConfig item.configRaw).cpu : ℚ) 0 * jsOrQ p.cpu 0
          + jsOrN ((parseConfig item.configRaw).ram : ℚ) 0 * jsOrQ p.ram 0
          + jsOrN ((parseConfig item.configRaw).storage : ℚ) 0
              * specStorageUnitPriceTruthy p item.storageType
          + (if isWindowsOs item.os then jsOrQ p.osWindows 0 else jsOrQ p.osLinux 0)
          + jsOrQ item.bwQt 0 * jsOrQ p.bandwidthQt 0
          + jsOrQ item.bwInternal 0 * jsOrQ p.bandwidthInternal 0) := by
  have key : ∀ (p : UnitPrices) (tier : StorageType),
      storagePriceUnit p tier = specStorageUnitPriceTruthy p tier := by
    intro p tier
    unfold storagePriceUnit specStorageUnitPriceTruthy isTruthyPrice jsOrQ
    cases hbt : p.byTier tier with
    | none =>
      cases hd : p.diskSanAllFlash with
      | none => simp
      | some w => by_cases hw : w = 0 <;> simp [hw]
    | some v =>
      by_cases hv : v = 0
      · cases hd : p.diskSanAllFlash with
        | none => simp [hv]
        | some w => by_cases hw : w = 0 <;> simp [hv, hw]
      · simp [hv]
  refine ⟨key, fun item p => ?_⟩
  show jsOrN ((parseConfig item.configRaw).cpu : ℚ) 0 * jsOrQ p.cpu 0
      + jsOrN ((parseConfig item.configRaw).ram : ℚ) 0 * jsOrQ p.ram 0
      + jsOrN ((parseConfig item.configRaw).storage : ℚ) 0
          * storagePriceUnit p item.storageType
      + (if isWindowsOs item.os then jsOrQ p.osWindows 0 else jsOrQ p.osLinux 0)
      + jsOrQ item.bwQt 0 * jsOrQ p.bandwidthQt 0
      + jsOrQ item.bwInternal 0 * jsOrQ p.bandwidthInternal 0 = _
  rw [key]

/-- C2 (counterexample): for an item with quantity -2 and unit price 1 the
code returns totalPrice -2, not unitPrice × 1: a negative quantity is truthy
in JavaScript, so the disjunction default to 1 does not apply to it. -/
theorem negative_quantity_cex :
    (calculateItemCost cexItemC2 (some cexPricesC2)).unitPrice = 1 ∧
    (calculateItemCost cexItemC2 (some cexPricesC2)).totalPrice = -2 ∧
    (calculateItemCost cexItemC2 (some cexPricesC2)).totalPrice
      ≠ (calculateItemCost cexItemC2 (some cexPricesC2)).unitPrice * 1 := by
  have hp : parseConfig "1 core" = ⟨1, 0, 0⟩ := by decide
  have hw : isWindowsOs (some "Ubuntu Linux (64 bit)") = false := by decide
  have h : calculateItemCost cexItemC2 (some cexPricesC2) = ⟨1, -2⟩ := by
    simp only [calculateItemCost, cexItemC2, cexPricesC2, hp, hw]
    norm_num [jsOrQ, jsOrN, storagePriceUnit, UnitPrices.byTier]
  rw [h]
  norm_num

/-- C2 (amended): totalPrice equals unitPrice times the effective quantity,
where quantity 0 or undefined is treated as 1 and every other value,
negative values included, is used as written. -/
theorem total_price_effective_quantity :
    ∀ (item : ServerItem) (prices : Option UnitPrices),
      (calculateItemCost item prices).totalPrice
        = (calculateItemCost item prices).unitPrice * effectiveQuantity item.quantity := by
  intro item prices
  cases prices with
  | none => simp [calculateItemCost, effectiveQuantity]
  | some p =>
    have hq : jsOrQ item.quantity 1 = effectiveQuantity item.quantity := by
      unfold jsOrQ effectiveQuantity
      cases item.quantity <;> rfl
    show (calculateItemCost item (some p)).unitPrice * jsOrQ item.quantity 1 = _
    rw [hq]

/-- C3: the auto-staffing computation sums developer mandays over exactly the
SeniorDev and JuniorDev items, sets each of pm, ba and tester to one third of
that total, so the three derived quantities are equal, each is one third of
the developer total, their sum is the developer total, and a developer total
of 9 yields pm = ba = tester = 3. -/
theorem autoStaffing_thirds :
    (∀ labors : List LaborItem,
      (autoLaborStats labors).devTotal = specDevMandays labors ∧
      (autoLaborStats labors).pm = (autoLaborStats labors).devTotal * (1/3) ∧
      (autoLaborStats labors).ba = (autoLaborStats labors).devTotal * (1/3) ∧
      (autoLaborStats labors).tester = (autoLaborStats labors).devTotal * (1/3) ∧
      (autoLaborStats labors).pm = (autoLaborStats labors).ba ∧
      (autoLaborStats labors).ba = (autoLaborStats labors).tester ∧
      (autoLaborStats labors).pm + (autoLaborStats labors).ba
          + (autoLaborStats labors).tester = (autoLaborStats labors).devTotal) ∧
    autoLaborStats [⟨Role.SeniorDev, 4⟩, ⟨Role.JuniorDev, 5⟩, ⟨Role.PM, 100⟩]
      = ⟨9, 3, 3, 3⟩ := by
  constructor
  · intro labors
    refine ⟨?_, rfl, rfl, rfl, rfl, rfl, ?_⟩
    · show (labors.filter fun l => l.role == Role.SeniorDev || l.role == Role.JuniorDev).foldl
          (fun sum l => sum + jsOrN l.mandays 0) 0 = specDevMandays labors
      rw [dev_filter_eq, foldl_add_mandays]
      unfold specDevMandays
      ring
    · show (autoLaborStats labors).devTotal * (1/3) + (autoLaborStats labors).devTotal * (1/3)
          + (autoLaborStats labors).devTotal * (1/3) = (autoLaborStats labors).devTotal
      ring
  · have hsum : ([(⟨Role.SeniorDev, 4⟩ : LaborItem), ⟨Role.JuniorDev, 5⟩, ⟨Role.PM, 100⟩].filter
        fun l => l.role == Role.SeniorDev || l.role == Role.JuniorDev)
        = [⟨Role.SeniorDev, 4⟩, ⟨Role.JuniorDev, 5⟩] := by decide
    show AutoLaborStats.mk _ _ _ _ = _
    rw [hsum]
    simp only [List.foldl_cons, List.foldl_nil]
    norm_num [jsOrN, AutoLaborStats.mk.injEq]

/-- C4 (counterexample): on an input in which the storage marker occurs
twice, the code scans only the split segment between the first and second
occurrences (1 tb, giving 1024), not everything after the first occurrence
(1 tb twice, giving 2048) as the claim states. -/
theorem storage_split_scope_cex :
    (parseConfig "storage: 1tb storage: 1tb").storage = 1024 ∧
    specStorageAfterFirst "storage: 1tb storage: 1tb" = 2048 ∧
    (parseConfig "storage: 1tb storage: 1tb").storage
      ≠ specStorageAfterFirst "storage: 1tb storage: 1tb" := by
  refine ⟨by decide, by decide, by decide⟩

/-- C4 (amended): storage is the sum of all unit matches (tb converted at
1024, gb and g taken directly) in the split segment between the first and
second occurrences of the storage marker — everything after the first
occurrence only when there is no second one — with the full-text single-value
fallback when that segment has no match; CPU and RAM still take only their
first match, and parsing "storage: 100GB 1TB" yields 1124. -/
theorem storage_sums_split_segment :
    (∀ raw : String, (parseConfig raw).storage = specStorageAmended raw) ∧
    (∀ raw : String, (parseConfig raw).cpu = (firstMatch cpuAt raw.data).getD 0) ∧
    (∀ raw : String, (parseConfig raw).ram = (firstMatch ramAt raw.data).getD 0) ∧
    (parseConfig "storage: 100GB 1TB").storage = 1124 := by
  refine ⟨fun raw => rfl, fun raw => rfl, fun raw => rfl, by decide⟩

/-- C5: when the storage marker does not occur (case-insensitively) in the
input, parseConfig computes storage by the single-value full-text fallback
search for a number followed by a GB or G unit and the word storage,
defaulting to 0; in particular the spec example parses to cpu 2, ram 4,
storage 200. -/
theorem storage_fallback_no_marker :
    (∀ raw : String, containsSub storageTag (lowerStr raw.data) = false →
      (parseConfig raw).storage = (firstMatch fallbackAt raw.data).getD 0) ∧
    parseConfig "CPU: 2 core; RAM 4GB; 200GB storage" = ⟨2, 4, 200⟩ := by
  constructor
  · intro raw h
    have h1 : afterFirstOcc storageTag (lowerStr raw.data) = none :=
      afterFirstOcc_eq_none _ _ h
    show (if (storMatches (storagePart raw.data)).isEmpty
        then (firstMatch fallbackAt raw.data).getD 0
        else ((storMatches (storagePart raw.data)).map
          fun m => if m.2 then m.1 * 1024 else m.1).sum)
      = (firstMatch fallbackAt raw.data).getD 0
    unfold storagePart
    rw [h1]
    rfl
  · decide

/-- Witness for C5: a concrete input without the storage marker on which the
fallback equation of the theorem holds. -/
theorem storage_fallback_no_marker_wit :
    containsSub storageTag (lowerStr "RAM 4GB; 200GB storage".data) = false ∧
    (parseConfig "RAM 4GB; 200GB storage").storage
      = (firstMatch fallbackAt "RAM 4GB; 200GB storage".data).getD 0 :=
  ⟨by decide, storage_fallback_no_marker.1 "RAM 4GB; 200GB storage" (by decide)⟩

/-- C6: the specification's example item prices to unitPrice 3179400 with
totalPrice 3179400 at quantity 1 and totalPrice 6358800 at quantity 2. -/
theorem item_cost_concrete :
    calculateItemCost (itemC6 1) (some pricesC6) = ⟨3179400, 3179400⟩ ∧
    calculateItemCost (itemC6 2) (some pricesC6) = ⟨3179400, 6358800⟩ := by
  have hp : parseConfig "CPU: 8 core; RAM 16GB; storage: 100GB" = ⟨8, 16, 100⟩ := by
    decide
  have hw : isWindowsOs (some "Ubuntu Linux (64 bit)") = false := by decide
  constructor <;>
  · simp only [calculateItemCost, itemC6, pricesC6, hp, hw]
    norm_num [jsOrQ, jsOrN, storagePriceUnit, UnitPrices.byTier,
      CalculationResult.mk.injEq]

/-- C7: none of the core functions can fail: a missing unit price table
yields exactly the zero cost result, a missing labor price table yields cost
0, and a labor price table without an entry for the item's role yields rate
0 and therefore cost 0. -/
theorem missing_tables_zero :
    (∀ item : ServerItem, calculateItemCost item none = ⟨0, 0⟩) ∧
    (∀ item : Option LaborItem, calculateLaborCost item none = 0) ∧
    (∀ (it : LaborItem) (p : LaborPrices), p it.role = none →
      calculateLaborCost (some it) (some p) = 0) := by
  refine ⟨fun _ => rfl, ?_, ?_⟩
  · intro item
    cases item <;> rfl
  · intro it p h
    show jsOrN it.mandays 0 * jsOrQ (p it.role) 0 = 0
    rw [h]
    show jsOrN it.mandays 0 * 0 = 0
    ring

/-- Witness for C7: a concrete labor item against an empty labor price
table costs 0. -/
theorem missing_tables_zero_wit :
    calculateLaborCost (some ⟨Role.PM, 5⟩) (some fun _ => none) = 0 :=
  missing_tables_zero.2.2 ⟨Role.PM, 5⟩ (fun _ => none) rfl

/-- C8: parseConfig is total and fully populates its result, returning 0 for
every field whose pattern found no match; garbage input parses to all
zeros. -/
theorem parse_total_defaults :
    parseConfig "no numbers here" = ⟨0, 0, 0⟩ ∧
    (∀ raw : String, firstMatch cpuAt raw.data = none → (parseConfig raw).cpu = 0) ∧
    (∀ raw : String, firstMatch ramAt raw.data = none → (parseConfig raw).ram = 0) ∧
    (∀ raw : String, storMatches (storagePart raw.data) = [] →
      firstMatch fallbackAt raw.data = none → (parseConfig raw).storage = 0) := by
  refine ⟨by decide, ?_, ?_, ?_⟩
  · intro raw h
    show (firstMatch cpuAt raw.data).getD 0 = 0
    rw [h]
    rfl
  · intro raw h
    show (firstMatch ramAt raw.data).getD 0 = 0
    rw [h]
    rfl
  · intro raw h1 h2
    show (if (storMatches (storagePart raw.data)).isEmpty
        then (firstMatch fallbackAt raw.data).getD 0
        else ((storMatches (storagePart raw.data)).map
          fun m => if m.2 then m.1 * 1024 else m.1).sum) = 0
    rw [h1, h2]
    rfl

/-- Witness for C8: the unmatched-field equations of the theorem at a
concrete garbage input. -/
theorem parse_total_defaults_wit :
    (parseConfig "zzz").cpu = 0 ∧ (parseConfig "zzz").ram = 0 ∧
    (parseConfig "zzz").storage = 0 :=
  ⟨parse_total_defaults.2.1 "zzz" (by decide),
   parse_total_defaults.2.2.1 "zzz" (by decide),
   parse_total_defaults.2.2.2 "zzz" (by decide) (by decide)⟩

/-- C9: the RAM pattern needs no RAM keyword — its second alternation branch
is unreachable, so it is equivalent to digits, optional whitespace, GB — and
the first such occurrence anywhere in the text is used, so a storage amount
is also read as RAM: parsing "storage: 100GB" gives ram 100 and
storage 100. -/
theorem ram_pattern_no_keyword :
    (∀ s : List Char, ramAt s = simpleGbAt s) ∧
    (∀ raw : String, (parseConfig raw).ram = (firstMatch simpleGbAt raw.data).getD 0) ∧
    (parseConfig "storage: 100GB").ram = 100 ∧
    (parseConfig "storage: 100GB").storage = 100 := by
  refine ⟨ramAt_eq_simpleGbAt, ?_, by decide, by decide⟩
  intro raw
  show (firstMatch ramAt raw.data).getD 0 = _
  rw [firstMatch_congr ramAt simpleGbAt ramAt_eq_simpleGbAt raw.data]

/-- C10: the unitPrice returned by calculateItemCost does not depend on the
item's quantity field: two items identical except for quantity get the same
unitPrice against any price table. -/
theorem unit_price_ignores_quantity :
    ∀ (os : Option String) (config : String) (q₁ q₂ : Option ℚ)
      (tier : StorageType) (b₁ b₂ : Option ℚ) (prices : Option UnitPrices),
      (calculateItemCost ⟨os, config, q₁, tier, b₁, b₂⟩ prices).unitPrice
        = (calculateItemCost ⟨os, config, q₂, tier, b₁, b₂⟩ prices).unitPrice := by
  intro os config q₁ q₂ tier b₁ b₂ prices
  cases prices <;> rfl

end EstimateCore
